import Mathlib

/-!
Shallow embedding of the storefront backend in `src/app.py` (a Flask app over
an SQLite database) and proofs about its endpoint behaviour.

Modelling conventions:
* Strings are Lean `String`s; character-level operations work on `String.data`.
* SQLite `REAL` prices are modelled as `Int` (only their ordering matters here).
* Timestamps (`created_at`, `datetime('now')`) are seconds as `Nat`; SQLite's
  chronological comparison of timestamp strings is modelled by `<` on `Nat`.
* The database is a `DB` value (a list of product rows and a list of order
  rows, in natural table order); each handler is a pure function from its
  inputs (session, parsed request data, current time, random values, and a
  `DB`) to a response value, paired with the resulting `DB` where it mutates.
* A raised database/JSON exception inside a handler's `try` block is modelled
  by an `Option String` argument carrying the exception message (`none` = the
  statements succeed).
* JSON blobs (`meta_json`, `items_json`, ...) are opaque strings that are
  stored and returned verbatim.
-/

/-- ASCII lower-casing of one character, as used by SQLite's default
case-insensitive `LIKE` (which folds only `A`-`Z`) and Python's `.lower()`
on ASCII input. -/
def lc (c : Char) : Char :=
  if 65 ≤ c.toNat ∧ c.toNat ≤ 90 then Char.ofNat (c.toNat + 32) else c

/-- ASCII whitespace recognised by Python's `str.strip()` / `str.split()`. -/
def isPySpace (c : Char) : Bool :=
  decide (c = ' ' ∨ c = '\t' ∨ c = '\n' ∨ c = '\r' ∨ c.toNat = 11 ∨ c.toNat = 12)

/-- Python `str.strip()` on the underlying character list. -/
def pyStripL (l : List Char) : List Char :=
  ((l.dropWhile isPySpace).reverse.dropWhile isPySpace).reverse

/-- Python `str.strip()`. -/
def pyStrip (s : String) : String := ⟨pyStripL s.data⟩

def isDigitC (c : Char) : Bool := decide (48 ≤ c.toNat ∧ c.toNat ≤ 57)

/-- Python `int(str)` on the common ASCII forms: surrounding whitespace is
ignored, an optional single sign is followed by one or more decimal digits;
anything else raises `ValueError`, modelled as `none`. -/
def parsePyInt (s : String) : Option Int :=
  let l := pyStripL s.data
  let sd : Bool × List Char :=
    match l with
    | '-' :: r => (true, r)
    | '+' :: r => (false, r)
    | r => (false, r)
  match sd with
  | (neg, ds) =>
    if ds ≠ [] ∧ ds.all isDigitC then
      let n : Nat := ds.foldl (fun a c => 10 * a + (c.toNat - 48)) 0
      some (if neg then -(n : Int) else (n : Int))
    else none

/-- Does `f` hold of some suffix of the list (the list itself included)? -/
def orOverSuffixes (f : List Char → Bool) : List Char → Bool
  | [] => f []
  | c :: t => f (c :: t) || orOverSuffixes f t

/-- SQLite `LIKE` pattern matching (default, no `ESCAPE` clause):
`%` matches any sequence, `_` matches any single character, other characters
match themselves up to ASCII case folding. -/
def likeM : List Char → List Char → Bool
  | [], s => s.isEmpty
  | p0 :: p, s =>
    if p0 = '%' then orOverSuffixes (fun t => likeM p t) s
    else
      match s with
      | [] => false
      | c :: t => (if p0 = '_' then true else lc p0 = lc c) && likeM p t

-- § Data model (tables of `doll_website.db`)

structure Product where
  id : String
  name : String
  price : Int
  url : String
  options_count : Nat
  meta_json : String
  detail_json : String
deriving DecidableEq

structure Order where
  order_ref : String
  uid : String
  email : String
  total_amount : String
  status : String
  created_at : Nat
  items_json : String
  shipping_json : String
  transaction_id : Option String
deriving DecidableEq

structure DB where
  products : List Product
  orders : List Order
deriving DecidableEq

structure User where
  uid : String
  email : String
  name : String
deriving DecidableEq

/-- The Flask session: the `user` entry set by `/api/login` and the
`is_admin` flag set by `/admin-login`. -/
structure Session where
  user : Option User
  is_admin : Bool
deriving DecidableEq

def is_admin (s : Session) : Bool := s.is_admin

-- § GET /api/products (get_products_api)

/-- The `page`/`limit` parsing of `get_products_api`: both come from one
`try` block, so if either fails to parse, both fall back to the defaults
`(1, 20)`; an absent parameter defaults before parsing. -/
def parsedParams (ps ls : Option String) : Int × Int :=
  let pr := match ps with | none => some (1 : Int) | some s => parsePyInt s
  let lr := match ls with | none => some (20 : Int) | some s => parsePyInt s
  match pr, lr with
  | some p, some l => (p, l)
  | _, _ => (1, 20)

def parsedPage (ps ls : Option String) : Int := (parsedParams ps ls).1

def parsedLimit (ps ls : Option String) : Int := (parsedParams ps ls).2

/-- SQLite `LIMIT lim OFFSET off` applied to a result list: a negative
offset behaves like 0, a negative limit means "no upper bound". -/
def sqlSlice {α : Type} (l : List α) (lim off : Int) : List α :=
  if lim < 0 then l.drop off.toNat else (l.drop off.toNat).take lim.toNat

/-- The `WHERE name LIKE ?` filter with pattern `f"%{search}%"`; an empty
(post-strip) search string means no `WHERE` clause. -/
def filteredProducts (db : DB) (q : Option String) : List Product :=
  let s := pyStrip (q.getD "")
  if s = "" then db.products
  else db.products.filter (fun p => likeM ('%' :: (s.data ++ ['%'])) p.name.data)

def priceLe (a b : Product) : Bool := decide (a.price ≤ b.price)
def priceGe (a b : Product) : Bool := decide (b.price ≤ a.price)
def nameLe (a b : Product) : Bool := decide (a.name ≤ b.name)
def nameGe (a b : Product) : Bool := decide (b.name ≤ a.name)

/-- The `ORDER BY` clause chosen from `sort`; unrecognized or absent modes
add no `ORDER BY`, leaving the table's natural order. -/
def applySort (sort : String) (l : List Product) : List Product :=
  if sort = "low-to-high" then l.mergeSort priceLe
  else if sort = "high-to-low" then l.mergeSort priceGe
  else if sort = "a-z" then l.mergeSort nameLe
  else if sort = "z-a" then l.mergeSort nameGe
  else l

/-- The page of product rows fetched by the main query of
`get_products_api`. -/
def pageRows (db : DB) (q sort ps ls : Option String) : List Product :=
  sqlSlice (applySort (sort.getD "") (filteredProducts db q))
    (parsedLimit ps ls) ((parsedPage ps ls - 1) * parsedLimit ps ls)

structure ProductsResp where
  total : Nat
  page : Int
  limit : Int
  count : Nat
  products : List String
deriving DecidableEq

/-- `GET /api/products`: `q`, `sort`, `page`, `limit` are the raw query
parameters (absent = `none`). -/
def get_products_api (db : DB) (q sort ps ls : Option String) : ProductsResp :=
  { total := (filteredProducts db q).length
    page := parsedPage ps ls
    limit := parsedLimit ps ls
    count := (pageRows db q sort ps ls).length
    products := (pageRows db q sort ps ls).map (fun p => p.meta_json) }

-- § GET /api/my-orders (get_my_orders)

/-- The `WHERE` condition of the stale-order `DELETE`: a row of this user
whose status is one of the two unpaid ones and whose `created_at` is older
than 24 hours (86400 seconds). -/
def staleUnpaid (now : Nat) (uid : String) (o : Order) : Bool :=
  decide (o.uid = uid ∧
    (o.status = "Pending Verification" ∨ o.status = "pending_payment") ∧
    o.created_at + 86400 < now)

/-- The seven columns selected and returned per order row (the two JSON
blobs are round-tripped verbatim). -/
structure OrderOut where
  order_ref : String
  total_amount : String
  status : String
  items : String
  shipping : String
  created_at : Nat
  transaction_id : Option String
deriving DecidableEq

def toOrderOut (o : Order) : OrderOut :=
  { order_ref := o.order_ref, total_amount := o.total_amount, status := o.status,
    items := o.items_json, shipping := o.shipping_json,
    created_at := o.created_at, transaction_id := o.transaction_id }

/-- `ORDER BY created_at DESC`. -/
def createdDesc (a b : Order) : Bool := decide (b.created_at ≤ a.created_at)

inductive MyOrdersResp
  | unauthorized
  | ok (orders : List OrderOut)
deriving DecidableEq

/-- `GET /api/my-orders`: delete this user's stale unpaid rows, then return
the user's remaining rows newest-first. -/
def get_my_orders (now : Nat) (sess : Session) (db : DB) : MyOrdersResp × DB :=
  match sess.user with
  | none => (.unauthorized, db)
  | some u =>
    let remaining := db.orders.filter (fun o => !staleUnpaid now u.uid o)
    let mine := remaining.filter (fun o => decide (o.uid = u.uid))
    (.ok ((mine.mergeSort createdDesc).map toOrderOut), { db with orders := remaining })

-- § POST /api/orders (create_order)

/-- The client-supplied order fields (JSON blobs already serialized, with
the `items`/`shipping` defaults applied). -/
structure OrderReq where
  orderRef : String
  email : String
  total : String
  status : Option String
  transactionId : Option String
  items_json : String
  shipping_json : String
deriving DecidableEq

inductive CreateResp
  | unauthorized
  | ok (order_ref : String)
  | failed (msg : String)
deriving DecidableEq

/-- `POST /api/orders`: auth check, then one `INSERT`; any exception in the
`try` block yields a 500 whose body is the fixed string
`"Failed to create order"` (the exception message itself is only printed to
the server log). -/
def create_order (sess : Session) (data : OrderReq) (now : Nat)
    (dbError : Option String) (db : DB) : CreateResp × DB :=
  match sess.user with
  | none => (.unauthorized, db)
  | some u =>
    match dbError with
    | some _ => (.failed "Failed to create order", db)
    | none =>
      let row : Order :=
        { order_ref := data.orderRef, uid := u.uid, email := data.email,
          total_amount := data.total, status := data.status.getD "pending_payment",
          created_at := now, items_json := data.items_json,
          shipping_json := data.shipping_json, transaction_id := data.transactionId }
      (.ok data.orderRef, { db with orders := db.orders ++ [row] })

-- § POST /api/upload (upload_file)

def digitChar (d : Nat) : Char :=
  match d with
  | 0 => '0' | 1 => '1' | 2 => '2' | 3 => '3' | 4 => '4'
  | 5 => '5' | 6 => '6' | 7 => '7' | 8 => '8' | _ => '9'

def natToCharsAux : Nat → Nat → List Char → List Char
  | 0, _, acc => acc
  | fuel + 1, n, acc =>
    if n < 10 then digitChar n :: acc
    else natToCharsAux fuel (n / 10) (digitChar (n % 10) :: acc)

/-- Python `str(n)` for a natural number (`n + 1` units of fuel always
suffice, since a number has at most `n + 1` decimal digits). -/
def natToChars (n : Nat) : List Char := natToCharsAux (n + 1) n []

/-- Python `filename.rsplit('.', 1)[1]`: the characters after the last dot
(meaningful only when the list contains a dot). -/
def extAfterDot (l : List Char) : List Char :=
  (l.reverse.takeWhile (fun c => decide (c ≠ '.'))).reverse

def allowedExts : List (List Char) := ["png".data, "jpg".data, "jpeg".data, "pdf".data]

/-- `allowed_file`: the name contains a dot and its lower-cased extension is
one of `png`, `jpg`, `jpeg`, `pdf`. -/
def allowed_file (filename : String) : Bool :=
  filename.data.contains '.' && decide ((extAfterDot filename.data).map lc ∈ allowedExts)

/-- The character class werkzeug's `secure_filename` keeps:
`[A-Za-z0-9_.-]`. -/
def isSafeFnChar (c : Char) : Bool :=
  decide ((65 ≤ c.toNat ∧ c.toNat ≤ 90) ∨ (97 ≤ c.toNat ∧ c.toNat ≤ 122) ∨
    (48 ≤ c.toNat ∧ c.toNat ≤ 57) ∨ c = '_' ∨ c = '.' ∨ c = '-')

/-- Python `str.split()` (split on whitespace runs, no empty pieces), via an
accumulator for the current word. -/
def splitWsAux : List Char → List Char → List (List Char)
  | [], cur => if cur = [] then [] else [cur.reverse]
  | c :: t, cur =>
    if isPySpace c then
      (if cur = [] then splitWsAux t [] else cur.reverse :: splitWsAux t [])
    else splitWsAux t (c :: cur)

def pySplitWs (l : List Char) : List (List Char) := splitWsAux l []

/-- Python `str.strip("._")`. -/
def stripDotUnderscore (l : List Char) : List Char :=
  let p : Char → Bool := fun c => decide (c = '.' ∨ c = '_')
  ((l.dropWhile p).reverse.dropWhile p).reverse

/-- Modelled from werkzeug's `secure_filename`, restricted to ASCII input on
a POSIX system: the path separator `/` becomes a space, whitespace-separated
words are joined with `_`, characters outside `[A-Za-z0-9_.-]` are dropped,
and leading/trailing dots and underscores are stripped. -/
def secure_filename (s : String) : String :=
  let l := s.data.map (fun c => if c = '/' then ' ' else c)
  let j := List.intercalate ['_'] (pySplitWs l)
  ⟨stripDotUnderscore (j.filter isSafeFnChar)⟩

structure UploadFile where
  filename : String
deriving DecidableEq

inductive UploadResp
  | unauthorized
  | noFilePart
  | noSelectedFile
  | notAllowed
  | ok (url filename : String)
deriving DecidableEq

def uploadStatus : UploadResp → Nat
  | .unauthorized => 401
  | .noFilePart => 400
  | .noSelectedFile => 400
  | .notAllowed => 400
  | .ok _ _ => 200

/-- `POST /api/upload`: `now` is `int(datetime.now().timestamp())` and
`rand8` is `uuid.uuid4().hex[:8]`. The second component is the file written
to the upload folder (`none` = nothing written). -/
def upload_file (sess : Session) (filePart : Option UploadFile) (now : Nat)
    (rand8 : String) : UploadResp × Option String :=
  match sess.user with
  | none => (.unauthorized, none)
  | some u =>
    match filePart with
    | none => (.noFilePart, none)
    | some f =>
      if f.filename = "" then (.noSelectedFile, none)
      else if allowed_file f.filename then
        let ext : List Char := (extAfterDot f.filename.data).map lc
        let unique : String :=
          ⟨"proof_".data ++ u.uid.data ++ "_".data ++ natToChars now ++ "_".data ++
            rand8.data ++ ".".data ++ ext⟩
        let filename := secure_filename unique
        (.ok ⟨"/static/proofs/".data ++ filename.data⟩ filename, some filename)
      else (.notAllowed, none)

-- § Admin API

structure AdminOrderReq where
  order_ref : String
  status : String
  total_amount : String
  transaction_id : Option String
deriving DecidableEq

structure AdminProductReq where
  id : String
  name : String
  price : Int
  url : String
  meta_json : String
  detail_json : String
deriving DecidableEq

inductive AdminResp
  | unauthorized
  | success
  | err500 (msg : String)
deriving DecidableEq

inductive GetAllResp
  | unauthorized
  | ok (products : List Product) (orders : List Order)
deriving DecidableEq

/-- `GET /api/admin/get-all`. -/
def admin_get_all (sess : Session) (db : DB) : GetAllResp :=
  if is_admin sess then .ok db.products (db.orders.mergeSort createdDesc)
  else .unauthorized

/-- `POST /api/admin/product/update`: overwrite the row matched by `id`; an
exception inside the `try` block yields `500` with `str(e)` as the body. -/
def admin_update_product (sess : Session) (data : AdminProductReq)
    (dbError : Option String) (db : DB) : AdminResp × DB :=
  if is_admin sess then
    match dbError with
    | some m => (.err500 m, db)
    | none =>
      (.success, { db with products := db.products.map (fun p =>
        if p.id = data.id then
          { p with
            name := data.name
            price := data.price
            url := data.url
            meta_json := data.meta_json
            detail_json := data.detail_json }
        else p) })
  else (.unauthorized, db)

/-- `POST /api/admin/order/update`: overwrite status, total and transaction
id of the row matched by `order_ref`; an exception inside the `try` block
yields `500` with `str(e)` as the body. -/
def admin_update_order (sess : Session) (data : AdminOrderReq)
    (dbError : Option String) (db : DB) : AdminResp × DB :=
  if is_admin sess then
    match dbError with
    | some m => (.err500 m, db)
    | none =>
      (.success, { db with orders := db.orders.map (fun o =>
        if o.order_ref = data.order_ref then
          { o with
            status := data.status
            total_amount := data.total_amount
            transaction_id := data.transaction_id }
        else o) })
  else (.unauthorized, db)

/-- `POST /api/admin/order/delete`: unconditional `DELETE` by `order_ref`. -/
def admin_delete_order (sess : Session) (order_ref : String) (db : DB) :
    AdminResp × DB :=
  if is_admin sess then
    (.success, { db with orders := db.orders.filter (fun o => decide (o.order_ref ≠ order_ref)) })
  else (.unauthorized, db)

-- § Concrete fixtures for witnesses and counterexamples

def mkProduct (i : Nat) : Product :=
  { id := ⟨natToChars i⟩
    name := ⟨'P' :: natToChars i⟩
    price := (i : Int)
    url := ""
    options_count := 1
    meta_json := ⟨'m' :: natToChars i⟩
    detail_json := "d" }

def prodAB : Product :=
  { id := "1"
    name := "ab"
    price := 3
    url := ""
    options_count := 0
    meta_json := "mAB"
    detail_json := "" }

def prodDoll : Product :=
  { id := "2"
    name := "Luxe DOLL House"
    price := 5
    url := ""
    options_count := 0
    meta_json := "mDoll"
    detail_json := "" }

def dbAB : DB := { products := [prodAB], orders := [] }

def dbSearch : DB := { products := [prodAB, prodDoll], orders := [] }

/-- 21 products, more than the default page size of 20. -/
def db21 : DB := { products := (List.range 21).map mkProduct, orders := [] }

def userW : User := { uid := "u1", email := "u1@example.com", name := "U" }

def sessW : Session := { user := some userW, is_admin := false }

def sessAdmin : Session := { user := none, is_admin := true }

def sessAnon : Session := { user := none, is_admin := false }

def mkOrder (ref : String) (uid : String) (status : String) (created : Nat) : Order :=
  { order_ref := ref
    uid := uid
    email := "e"
    total_amount := "10"
    status := status
    created_at := created
    items_json := "[]"
    shipping_json := "{}"
    transaction_id := none }

/-- Stale pending order of `u1`: created 25 hours before time 100 * 3600. -/
def oStale : Order := mkOrder "R1" "u1" "pending_payment" (75 * 3600)

/-- Fresh pending order of `u1`: created 1 hour before time 100 * 3600. -/
def oFresh : Order := mkOrder "R2" "u1" "pending_payment" (99 * 3600)

/-- Stale pending order of another user. -/
def oOther : Order := mkOrder "R3" "u2" "pending_payment" (75 * 3600)

/-- Stale order of `u1` with a non-unpaid status. -/
def oPaid : Order := mkOrder "R4" "u1" "shipped" (75 * 3600)

def dbOrders : DB := { products := [], orders := [oStale, oFresh, oOther, oPaid] }

def orderReqW : OrderReq :=
  { orderRef := "R9"
    email := "e"
    total := "10"
    status := none
    transactionId := none
    items_json := "[]"
    shipping_json := "{}" }

def adminOrderReqW : AdminOrderReq :=
  { order_ref := "NOPE"
    status := "Paid"
    total_amount := "11"
    transaction_id := some "T1" }

def adminProductReqW : AdminProductReq :=
  { id := "1"
    name := "n"
    price := 2
    url := ""
    meta_json := "{}"
    detail_json := "{}" }

def sessBoth : Session := { user := some userW, is_admin := true }

/-- The filename shape claimed for a successful upload:
`proof_{uid}_{unixSeconds}_{rand8}.{ext}` with the extension lower-cased. -/
def uploadName (u : User) (f : UploadFile) (now : Nat) (rand8 : String) : List Char :=
  "proof_".data ++ u.uid.data ++ "_".data ++ natToChars now ++ "_".data ++
    rand8.data ++ ".".data ++ (extAfterDot f.filename.data).map lc

-- § Lemmas: LIKE matching vs case-insensitive substring containment

theorem orOverSuffixes_eq_true (f : List Char → Bool) (s : List Char) :
    orOverSuffixes f s = true ↔ ∃ n, f (s.drop n) = true := by
  induction s with
  | nil =>
    simp [orOverSuffixes]
  | cons c t ih =>
    simp only [orOverSuffixes, Bool.or_eq_true, ih]
    constructor
    · rintro (h | ⟨n, h⟩)
      · exact ⟨0, h⟩
      · exact ⟨n + 1, h⟩
    · rintro ⟨n, h⟩
      match n with
      | 0 => exact Or.inl h
      | m + 1 => exact Or.inr ⟨m, h⟩

theorem likeM_tail_percent (q : List Char) (hw : ∀ c ∈ q, c ≠ '%' ∧ c ≠ '_') :
    ∀ s : List Char, likeM (q ++ ['%']) s = true ↔ (q.map lc) <+: (s.map lc) := by
  induction q with
  | nil =>
    intro s
    simp only [List.nil_append, List.map_nil, List.nil_prefix, iff_true]
    have h1 : likeM ['%'] s = orOverSuffixes (fun t => likeM [] t) s := by
      simp [likeM]
    rw [h1, orOverSuffixes_eq_true]
    exact ⟨s.length, by simp [likeM]⟩
  | cons a q ih =>
    intro s
    obtain ⟨ha1, ha2⟩ := hw a (List.mem_cons_self a q)
    have hw' : ∀ c ∈ q, c ≠ '%' ∧ c ≠ '_' := fun c hc => hw c (List.mem_cons_of_mem a hc)
    cases s with
    | nil =>
      simp [likeM, if_neg ha1]
    | cons c t =>
      simp only [List.cons_append, likeM, if_neg ha1, if_neg ha2, List.map_cons,
        Bool.and_eq_true, decide_eq_true_eq, List.append_eq, ih hw' t,
        List.cons_prefix_cons]

theorem infix_iff_exists_drop {α : Type} {l₁ l₂ : List α} :
    l₁ <:+: l₂ ↔ ∃ n, l₁ <+: l₂.drop n := by
  rw [List.infix_iff_prefix_suffix]
  constructor
  · rintro ⟨t, hp, hs⟩
    exact ⟨l₂.length - t.length, by rwa [← List.suffix_iff_eq_drop.mp hs]⟩
  · rintro ⟨n, hp⟩
    exact ⟨l₂.drop n, hp, List.drop_suffix n l₂⟩

/-- For a wildcard-free search string `q`, the SQLite filter
`name LIKE '%q%'` is exactly case-insensitive substring containment. -/
theorem likeM_iff_contains (q s : List Char) (hw : ∀ c ∈ q, c ≠ '%' ∧ c ≠ '_') :
    likeM ('%' :: (q ++ ['%'])) s = true ↔ (q.map lc) <:+: (s.map lc) := by
  have h1 : likeM ('%' :: (q ++ ['%'])) s
      = orOverSuffixes (fun t => likeM (q ++ ['%']) t) s := by
    simp [likeM]
  rw [h1, orOverSuffixes_eq_true, infix_iff_exists_drop]
  constructor
  · rintro ⟨n, h⟩
    refine ⟨n, ?_⟩
    rw [← List.map_drop]
    exact (likeM_tail_percent q hw _).mp h
  · rintro ⟨n, h⟩
    refine ⟨n, (likeM_tail_percent q hw _).mpr ?_⟩
    rw [List.map_drop]
    exact h

-- § Lemmas: the products query

theorem applySort_perm (s : String) (l : List Product) :
    List.Perm (applySort s l) l := by
  unfold applySort
  split_ifs <;> first | exact List.mergeSort_perm _ _ | exact List.Perm.refl l

theorem length_applySort (s : String) (l : List Product) :
    (applySort s l).length = l.length :=
  (applySort_perm s l).length_eq

theorem mem_applySort {p : Product} {s : String} {l : List Product} :
    p ∈ applySort s l ↔ p ∈ l :=
  (applySort_perm s l).mem_iff

theorem pageRows_sublist (db : DB) (q sort ps ls : Option String) :
    List.Sublist (pageRows db q sort ps ls)
      (applySort (sort.getD "") (filteredProducts db q)) := by
  unfold pageRows sqlSlice
  split
  · exact List.drop_sublist _ _
  · exact (List.take_sublist _ _).trans (List.drop_sublist _ _)

/-- **C2.** For every request to GET /api/products whose effective `page` is
at least 1 and whose effective `limit` is positive, the response's `count`
equals the length of the `products` array, `count ≤ limit`, and
`count ≤ total`. -/
theorem products_count_bounds (db : DB) (q sort ps ls : Option String)
    (_hpage : 1 ≤ (get_products_api db q sort ps ls).page)
    (hlimit : 0 < (get_products_api db q sort ps ls).limit) :
    (get_products_api db q sort ps ls).count
        = (get_products_api db q sort ps ls).products.length
    ∧ ((get_products_api db q sort ps ls).count : Int)
        ≤ (get_products_api db q sort ps ls).limit
    ∧ (get_products_api db q sort ps ls).count
        ≤ (get_products_api db q sort ps ls).total := by
  have hlim : 0 < parsedLimit ps ls := hlimit
  refine ⟨by simp [get_products_api], ?_, ?_⟩
  · show ((pageRows db q sort ps ls).length : Int) ≤ parsedLimit ps ls
    have hrows : pageRows db q sort ps ls
        = ((applySort (sort.getD "") (filteredProducts db q)).drop
            ((parsedPage ps ls - 1) * parsedLimit ps ls).toNat).take
            (parsedLimit ps ls).toNat := by
      unfold pageRows sqlSlice
      rw [if_neg (by omega)]
    rw [hrows]
    have h1 := List.length_take_le (parsedLimit ps ls).toNat
      ((applySort (sort.getD "") (filteredProducts db q)).drop
        ((parsedPage ps ls - 1) * parsedLimit ps ls).toNat)
    omega
  · show (pageRows db q sort ps ls).length ≤ (filteredProducts db q).length
    have h2 := (pageRows_sublist db q sort ps ls).length_le
    rw [length_applySort] at h2
    exact h2

/-- **C4.** With `sort=low-to-high` the returned page of product rows has
non-decreasing prices; the four recognized sort modes map to price
ascending/descending and name ascending/descending; any other or absent
sort value leaves the rows in the table's natural order. -/
theorem products_sort_spec (db : DB) (q ps ls : Option String) (l : List Product)
    (s : String) (hs1 : s ≠ "low-to-high") (hs2 : s ≠ "high-to-low")
    (hs3 : s ≠ "a-z") (hs4 : s ≠ "z-a") :
    (pageRows db q (some "low-to-high") ps ls).Pairwise (fun a b => a.price ≤ b.price)
    ∧ (get_products_api db q (some "low-to-high") ps ls).products
        = (pageRows db q (some "low-to-high") ps ls).map (fun p => p.meta_json)
    ∧ applySort "low-to-high" l = l.mergeSort priceLe
    ∧ applySort "high-to-low" l = l.mergeSort priceGe
    ∧ applySort "a-z" l = l.mergeSort nameLe
    ∧ applySort "z-a" l = l.mergeSort nameGe
    ∧ applySort s l = l
    ∧ pageRows db q none ps ls
        = sqlSlice (filteredProducts db q) (parsedLimit ps ls)
            ((parsedPage ps ls - 1) * parsedLimit ps ls) := by
  have htrans : ∀ a b c : Product,
      priceLe a b = true → priceLe b c = true → priceLe a c = true := by
    intro a b c h1 h2
    simp only [priceLe, decide_eq_true_eq] at h1 h2 ⊢
    omega
  have htot : ∀ a b : Product, priceLe a b || priceLe b a := by
    intro a b
    simp only [priceLe]
    rcases le_total a.price b.price with h | h <;> simp [h]
  have hlow : applySort "low-to-high" (filteredProducts db q)
      = (filteredProducts db q).mergeSort priceLe := by
    rw [applySort, if_pos rfl]
  refine ⟨?_, rfl, by rw [applySort, if_pos rfl], by simp [applySort],
    by simp [applySort], by simp [applySort], by simp [applySort, hs1, hs2, hs3, hs4],
    by simp [pageRows, applySort]⟩
  have hsorted := List.sorted_mergeSort htrans htot (filteredProducts db q)
  have hsub := pageRows_sublist db q (some "low-to-high") ps ls
  rw [Option.getD_some, hlow] at hsub
  exact (List.Pairwise.sublist hsub hsorted).imp (fun h => of_decide_eq_true h)

theorem parsedParams_none_none : parsedParams none none = (1, 20) := rfl

theorem parsedParams_bad_page (bad : String) (hbad : parsePyInt bad = none)
    (ls : Option String) : parsedParams (some bad) ls = (1, 20) := by
  rcases ls with _ | s
  · simp [parsedParams, hbad]
  · rcases hps : parsePyInt s with _ | v <;> simp [parsedParams, hbad, hps]

theorem parsedParams_bad_limit (bad : String) (hbad : parsePyInt bad = none)
    (ps : Option String) : parsedParams ps (some bad) = (1, 20) := by
  rcases ps with _ | s
  · simp [parsedParams, hbad]
  · rcases hps : parsePyInt s with _ | v <;> simp [parsedParams, hbad, hps]

/-- **C5.** If `page` or `limit` fails integer parsing, both silently reset
to the defaults `page=1`, `limit=20` — the response is identical to one with
both parameters absent — and the slice offset used is `(page-1)*limit`. -/
theorem products_params_default (db : DB) (q sort : Option String) (bad : String)
    (hbad : parsePyInt bad = none) (ps ls : Option String) :
    get_products_api db q sort (some bad) ls = get_products_api db q sort none none
    ∧ get_products_api db q sort ps (some bad) = get_products_api db q sort none none
    ∧ (get_products_api db q sort (some bad) ls).page = 1
    ∧ (get_products_api db q sort (some bad) ls).limit = 20
    ∧ (get_products_api db q sort ps (some bad)).page = 1
    ∧ (get_products_api db q sort ps (some bad)).limit = 20
    ∧ pageRows db q sort none none
        = sqlSlice (applySort (sort.getD "") (filteredProducts db q)) 20 ((1 - 1) * 20) := by
  have h1 := parsedParams_bad_page bad hbad ls
  have h2 := parsedParams_bad_limit bad hbad ps
  refine ⟨?_, ?_, ?_, ?_, ?_, ?_, ?_⟩
  all_goals
    simp [get_products_api, pageRows, parsedPage, parsedLimit, h1, h2,
      parsedParams_none_none]

/-- **C10.** When the `limit` parameter parses to a negative integer, the
parse succeeds and no error is returned; the negative value is used as an
unlimited SQL `LIMIT`, so the returned page is every matching row from the
offset onward and `count` is `total` minus the offset (in particular `count`
can exceed both the requested limit and the default 20). -/
theorem products_negative_limit (db : DB) (q sort ps : Option String) (s : String)
    (l : Int) (_hs : parsePyInt s = some l) (hneg : l < 0)
    (hused : parsedLimit ps (some s) = l) :
    (get_products_api db q sort ps (some s)).limit = l
    ∧ (get_products_api db q sort ps (some s)).products
        = ((applySort (sort.getD "") (filteredProducts db q)).drop
            ((parsedPage ps (some s) - 1) * l).toNat).map (fun p => p.meta_json)
    ∧ (get_products_api db q sort ps (some s)).count
        = (get_products_api db q sort ps (some s)).total
            - ((parsedPage ps (some s) - 1) * l).toNat := by
  have hrows : pageRows db q sort ps (some s)
      = (applySort (sort.getD "") (filteredProducts db q)).drop
          ((parsedPage ps (some s) - 1) * l).toNat := by
    unfold pageRows sqlSlice
    rw [hused, if_pos hneg]
  refine ⟨hused, ?_, ?_⟩
  · simp [get_products_api, hrows]
  · simp [get_products_api, hrows, List.length_drop, length_applySort]

-- § C3: search semantics

/-- **C3, counterexample.** The search is implemented with SQL `LIKE`, whose
wildcards are not escaped: for `q = "a_"` the product named `"ab"` is
returned although its name does not contain `"a_"` as a (case-insensitive)
substring. -/
theorem search_wildcard_cex :
    (get_products_api dbAB (some "a_") none none none).products = ["mAB"]
    ∧ prodAB.name = "ab"
    ∧ ¬ List.IsInfix ("a_".data.map lc) (prodAB.name.data.map lc) := by
  refine ⟨by decide, rfl, by decide⟩

/-- **C3, amended.** For every search string `q` that is non-empty after
stripping surrounding whitespace and contains no SQL `LIKE` wildcard
(`%` or `_`), the filter keeps exactly the products whose name contains the
stripped `q` as a case-insensitive substring (so the response returns only
such products); an absent, empty or whitespace-only `q` disables the filter
and every product is matched. -/
theorem search_filter_spec (db : DB) (q : String) (sort ps ls : Option String)
    (hne : pyStrip q ≠ "")
    (hw : ∀ c ∈ (pyStrip q).data, c ≠ '%' ∧ c ≠ '_') :
    (∀ p : Product, p ∈ filteredProducts db (some q) ↔
        p ∈ db.products ∧ List.IsInfix ((pyStrip q).data.map lc) (p.name.data.map lc))
    ∧ (∀ m ∈ (get_products_api db (some q) sort ps ls).products,
        ∃ p : Product, p ∈ db.products ∧ p.meta_json = m ∧
          List.IsInfix ((pyStrip q).data.map lc) (p.name.data.map lc))
    ∧ filteredProducts db none = db.products
    ∧ (∀ q2 : String, pyStrip q2 = "" → filteredProducts db (some q2) = db.products) := by
  have hmem : ∀ p : Product, p ∈ filteredProducts db (some q) ↔
      p ∈ db.products ∧ List.IsInfix ((pyStrip q).data.map lc) (p.name.data.map lc) := by
    intro p
    rw [filteredProducts]
    simp only [Option.getD_some, if_neg hne, List.mem_filter]
    rw [likeM_iff_contains _ _ hw]
  refine ⟨hmem, ?_, by rw [filteredProducts]; rfl, ?_⟩
  · intro m hm
    rw [get_products_api] at hm
    simp only [List.mem_map] at hm
    obtain ⟨p, hp, hpm⟩ := hm
    have hp2 : p ∈ filteredProducts db (some q) := by
      have := (pageRows_sublist db (some q) sort ps ls).subset hp
      exact mem_applySort.mp this
    obtain ⟨hp3, hp4⟩ := (hmem p).mp hp2
    exact ⟨p, hp3, hpm, hp4⟩
  · intro q2 h2
    rw [filteredProducts]
    simp [h2]

/-- Witness for `search_filter_spec`: searching `"doll"` keeps exactly the
product whose name contains it case-insensitively. -/
theorem search_filter_spec_witness :
    pyStrip "doll" ≠ ""
    ∧ (prodDoll ∈ filteredProducts dbSearch (some "doll") ↔
        prodDoll ∈ dbSearch.products
        ∧ List.IsInfix (("doll" : String).data.map lc) (prodDoll.name.data.map lc))
    ∧ (prodAB ∈ filteredProducts dbSearch (some "doll") ↔
        prodAB ∈ dbSearch.products
        ∧ List.IsInfix (("doll" : String).data.map lc) (prodAB.name.data.map lc)) := by
  have h := search_filter_spec dbSearch "doll" none none none (by decide) (by decide)
  exact ⟨by decide, h.1 prodDoll, h.1 prodAB⟩

/-- Witness for `products_count_bounds` at a concrete 21-product table with
default paging. -/
theorem products_count_bounds_witness :
    1 ≤ (get_products_api db21 none none none none).page
    ∧ 0 < (get_products_api db21 none none none none).limit
    ∧ (get_products_api db21 none none none none).count
        = (get_products_api db21 none none none none).products.length
    ∧ ((get_products_api db21 none none none none).count : Int)
        ≤ (get_products_api db21 none none none none).limit
    ∧ (get_products_api db21 none none none none).count
        ≤ (get_products_api db21 none none none none).total :=
  ⟨by decide, by decide,
    (products_count_bounds db21 none none none none (by decide) (by decide)).1,
    (products_count_bounds db21 none none none none (by decide) (by decide)).2.1,
    (products_count_bounds db21 none none none none (by decide) (by decide)).2.2⟩

/-- Witness for `products_sort_spec` at concrete inputs: a price-sorted page
and an unrecognized sort mode. -/
theorem products_sort_spec_witness :
    (pageRows dbSearch none (some "low-to-high") none none).Pairwise
      (fun a b => a.price ≤ b.price)
    ∧ applySort "bogus" db21.products = db21.products := by
  have h := products_sort_spec dbSearch none none none db21.products "bogus"
    (by decide) (by decide) (by decide) (by decide)
  exact ⟨h.1, h.2.2.2.2.2.2.1⟩

/-- Witness for `products_params_default`: an unparsable `page` (or `limit`)
resets both parameters to the defaults. -/
theorem products_params_default_witness :
    get_products_api db21 none none (some "abc") (some "3")
        = get_products_api db21 none none none none
    ∧ get_products_api db21 none none (some "2") (some "abc")
        = get_products_api db21 none none none none
    ∧ (get_products_api db21 none none (some "abc") (some "3")).page = 1
    ∧ (get_products_api db21 none none (some "abc") (some "3")).limit = 20 := by
  have h := products_params_default db21 none none "abc" (by decide)
    (some "2") (some "3")
  exact ⟨h.1, h.2.1, h.2.2.1, h.2.2.2.1⟩

/-- Witness for `products_negative_limit`: with `limit=-1` over a 21-product
table the whole table is returned, exceeding both the requested limit and
the default 20. -/
theorem products_negative_limit_witness :
    parsePyInt "-1" = some (-1)
    ∧ (get_products_api db21 none none none (some "-1")).count = 21
    ∧ 20 < (get_products_api db21 none none none (some "-1")).count
    ∧ (get_products_api db21 none none none (some "-1")).limit < 0 := by
  have h := products_negative_limit db21 none none none "-1" (-1)
    (by decide) (by decide) (by decide)
  have hc : (get_products_api db21 none none none (some "-1")).count = 21 :=
    h.2.2.trans (by decide)
  refine ⟨by decide, hc, ?_, ?_⟩
  · rw [hc]; decide
  · rw [h.1]; decide

-- § C1: list-mine expiry sweep and listing

/-- **C1.** For an authenticated user, GET /api/my-orders first deletes
exactly that caller's rows with status `pending_payment` or
`Pending Verification` older than 24 hours (every other row survives), then
returns exactly the caller's remaining rows, ordered newest-first by
`created_at`. -/
theorem my_orders_spec (now : Nat) (u : User) (sess : Session) (db : DB)
    (hu : sess.user = some u) :
    (get_my_orders now sess db).2.orders
        = db.orders.filter (fun o => !staleUnpaid now u.uid o)
    ∧ (get_my_orders now sess db).2.products = db.products
    ∧ (∀ o : Order, o ∈ db.orders →
        (o ∈ (get_my_orders now sess db).2.orders ↔ ¬ staleUnpaid now u.uid o = true))
    ∧ ∃ outs : List OrderOut,
        (get_my_orders now sess db).1 = .ok outs
        ∧ List.Perm outs ((db.orders.filter
            (fun o => decide (o.uid = u.uid) && !staleUnpaid now u.uid o)).map toOrderOut)
        ∧ outs.Pairwise (fun a b => b.created_at ≤ a.created_at) := by
  have hget : get_my_orders now sess db
      = (.ok ((((db.orders.filter (fun o => !staleUnpaid now u.uid o)).filter
            (fun o => decide (o.uid = u.uid))).mergeSort createdDesc).map toOrderOut),
          { db with orders := db.orders.filter (fun o => !staleUnpaid now u.uid o) }) := by
    rw [get_my_orders, hu]
  rw [hget]
  refine ⟨rfl, rfl, ?_, ?_⟩
  · intro o ho
    simp [List.mem_filter, ho]
  · refine ⟨_, rfl, ?_, ?_⟩
    · rw [List.filter_filter]
      exact (List.mergeSort_perm _ _).map toOrderOut
    · have htrans : ∀ a b c : Order,
          createdDesc a b = true → createdDesc b c = true → createdDesc a c = true := by
        intro a b c h1 h2
        simp only [createdDesc, decide_eq_true_eq] at h1 h2 ⊢
        omega
      have htot : ∀ a b : Order, createdDesc a b || createdDesc b a := by
        intro a b
        simp only [createdDesc]
        rcases Nat.le_total b.created_at a.created_at with h | h <;> simp [h]
      have hsorted := List.sorted_mergeSort htrans htot
        ((db.orders.filter (fun o => !staleUnpaid now u.uid o)).filter
          (fun o => decide (o.uid = u.uid)))
      rw [List.pairwise_map]
      exact hsorted.imp (fun h => of_decide_eq_true h)

/-- Witness for `my_orders_spec`: at time 360000 (100 h), the caller's
25-hour-old `pending_payment` order is deleted and absent from the response,
the 1-hour-old one is kept and returned first, and rows of other users or
other statuses survive. -/
theorem my_orders_spec_witness :
    (get_my_orders 360000 sessW dbOrders).2.orders = [oFresh, oOther, oPaid]
    ∧ (oStale ∈ (get_my_orders 360000 sessW dbOrders).2.orders
        ↔ ¬ staleUnpaid 360000 userW.uid oStale = true)
    ∧ ∃ outs : List OrderOut,
        (get_my_orders 360000 sessW dbOrders).1 = .ok outs
        ∧ List.Perm outs ((dbOrders.orders.filter
            (fun o => decide (o.uid = userW.uid)
              && !staleUnpaid 360000 userW.uid o)).map toOrderOut)
        ∧ outs.Pairwise (fun a b => b.created_at ≤ a.created_at) := by
  have h := my_orders_spec 360000 userW sessW dbOrders rfl
  exact ⟨h.1.trans (by decide), h.2.2.1 oStale (by decide), h.2.2.2⟩

-- § C7: authentication and admin gates

/-- **C7.** A request without a logged-in user gets 401 from
/api/my-orders, /api/orders and /api/upload, and a request whose session
lacks the `is_admin` flag gets 401 from every /api/admin/* endpoint; in all
cases the database is unchanged and nothing is written to disk. -/
theorem unauthorized_spec (s1 s2 : Session) (db : DB) (now : Nat)
    (data : OrderReq) (err : Option String) (f : Option UploadFile)
    (rand8 : String) (dp : AdminProductReq) (dord : AdminOrderReq) (ref : String)
    (h1 : s1.user = none) (h2 : s2.is_admin = false) :
    get_my_orders now s1 db = (.unauthorized, db)
    ∧ create_order s1 data now err db = (.unauthorized, db)
    ∧ upload_file s1 f now rand8 = (.unauthorized, none)
    ∧ admin_get_all s2 db = .unauthorized
    ∧ admin_update_product s2 dp err db = (.unauthorized, db)
    ∧ admin_update_order s2 dord err db = (.unauthorized, db)
    ∧ admin_delete_order s2 ref db = (.unauthorized, db) := by
  refine ⟨?_, ?_, ?_, ?_, ?_, ?_, ?_⟩
  · rw [get_my_orders, h1]
  · rw [create_order, h1]
  · rw [upload_file, h1]
  · rw [admin_get_all, is_admin, h2]; rfl
  · rw [admin_update_product.eq_def, is_admin, h2]; rfl
  · rw [admin_update_order.eq_def, is_admin, h2]; rfl
  · rw [admin_delete_order, is_admin, h2]; rfl

/-- Witness for `unauthorized_spec`: an anonymous session is rejected by the
user endpoints, and a logged-in but non-admin session is rejected by the
admin endpoints. -/
theorem unauthorized_spec_witness :
    get_my_orders 0 sessAnon dbOrders = (.unauthorized, dbOrders)
    ∧ create_order sessAnon orderReqW 0 none dbOrders = (.unauthorized, dbOrders)
    ∧ upload_file sessAnon none 0 "abcd1234" = (.unauthorized, none)
    ∧ admin_get_all sessW dbOrders = .unauthorized
    ∧ admin_update_product sessW adminProductReqW none dbOrders
        = (.unauthorized, dbOrders)
    ∧ admin_update_order sessW adminOrderReqW none dbOrders
        = (.unauthorized, dbOrders)
    ∧ admin_delete_order sessW "R1" dbOrders = (.unauthorized, dbOrders) :=
  unauthorized_spec sessAnon sessW dbOrders 0 orderReqW none none "abcd1234"
    adminProductReqW adminOrderReqW "R1" rfl rfl

-- § C8: admin mutations on an absent order_ref are successful no-ops

/-- **C8.** An admin update whose `order_ref` matches no stored order
returns success and modifies no row; an admin delete by an absent
`order_ref` likewise succeeds as a no-op. -/
theorem admin_absent_ref_noop (sess : Session) (db : DB) (d : AdminOrderReq)
    (ref : String) (hadm : is_admin sess = true)
    (h1 : ∀ o ∈ db.orders, o.order_ref ≠ d.order_ref)
    (h2 : ∀ o ∈ db.orders, o.order_ref ≠ ref) :
    admin_update_order sess d none db = (.success, db)
    ∧ admin_delete_order sess ref db = (.success, db) := by
  constructor
  · rw [admin_update_order, if_pos hadm]
    have hmap : db.orders.map (fun o =>
        if o.order_ref = d.order_ref then
          { o with
            status := d.status
            total_amount := d.total_amount
            transaction_id := d.transaction_id }
        else o) = db.orders := by
      rw [List.map_congr_left (fun o ho => if_neg (h1 o ho))]
      exact List.map_id' db.orders
    rw [hmap]
  · rw [admin_delete_order, if_pos hadm]
    have hfil : db.orders.filter (fun o => decide (o.order_ref ≠ ref)) = db.orders :=
      List.filter_eq_self.mpr (fun o ho => decide_eq_true (h2 o ho))
    rw [hfil]

/-- Witness for `admin_absent_ref_noop`: the fixture table holds refs
R1-R4, so updating "NOPE" and deleting "NOPE2" are successful no-ops. -/
theorem admin_absent_ref_noop_witness :
    admin_update_order sessAdmin adminOrderReqW none dbOrders = (.success, dbOrders)
    ∧ admin_delete_order sessAdmin "NOPE2" dbOrders = (.success, dbOrders) :=
  admin_absent_ref_noop sessAdmin dbOrders adminOrderReqW "NOPE2" rfl
    (by decide) (by decide)

-- § C9: which exception messages reach the client

/-- **C9, counterexample.** When the `INSERT` of /api/orders raises an
exception with message "boom", the endpoint returns 500 whose body is the
fixed string "Failed to create order": the exception's message is not
surfaced to the client. -/
theorem create_order_error_cex :
    create_order sessW orderReqW 0 (some "boom") dbOrders
        = (.failed "Failed to create order", dbOrders)
    ∧ ("Failed to create order" : String) ≠ "boom" :=
  ⟨rfl, by decide⟩

/-- **C9, amended.** On a raised exception, the admin product-update and
order-update endpoints return 500 with the exception's message surfaced
directly in the body, while order creation returns 500 with the fixed body
"Failed to create order" (the message is only logged); in each case the
database is unchanged. -/
theorem error_messages_spec (sess : Session) (u : User) (data : OrderReq)
    (now : Nat) (m : String) (db : DB) (dp : AdminProductReq)
    (dord : AdminOrderReq) (hu : sess.user = some u)
    (hadm : is_admin sess = true) :
    create_order sess data now (some m) db = (.failed "Failed to create order", db)
    ∧ admin_update_product sess dp (some m) db = (.err500 m, db)
    ∧ admin_update_order sess dord (some m) db = (.err500 m, db) := by
  refine ⟨?_, ?_, ?_⟩
  · rw [create_order, hu]
  · rw [admin_update_product, if_pos hadm]
  · rw [admin_update_order, if_pos hadm]

/-- Witness for `error_messages_spec` at a concrete session and message. -/
theorem error_messages_spec_witness :
    create_order sessBoth orderReqW 7 (some "db locked") dbOrders
        = (.failed "Failed to create order", dbOrders)
    ∧ admin_update_product sessBoth adminProductReqW (some "db locked") dbOrders
        = (.err500 "db locked", dbOrders)
    ∧ admin_update_order sessBoth adminOrderReqW (some "db locked") dbOrders
        = (.err500 "db locked", dbOrders) :=
  error_messages_spec sessBoth userW orderReqW 7 "db locked" dbOrders
    adminProductReqW adminOrderReqW rfl rfl

-- § C6: upload validation and generated filename

theorem digitChar_range (d : Nat) :
    48 ≤ (digitChar d).toNat ∧ (digitChar d).toNat ≤ 57 := by
  unfold digitChar
  split <;> decide

theorem natToCharsAux_mem (fuel : Nat) :
    ∀ (n : Nat) (acc : List Char),
      (∀ c ∈ acc, 48 ≤ c.toNat ∧ c.toNat ≤ 57) →
      ∀ c ∈ natToCharsAux fuel n acc, 48 ≤ c.toNat ∧ c.toNat ≤ 57 := by
  induction fuel with
  | zero =>
    intro n acc hacc c hc
    exact hacc c hc
  | succ fuel ih =>
    intro n acc hacc c hc
    rw [natToCharsAux] at hc
    split at hc
    · rcases List.mem_cons.mp hc with rfl | hmem
      · exact digitChar_range n
      · exact hacc c hmem
    · refine ih (n / 10) _ ?_ c hc
      intro x hx
      rcases List.mem_cons.mp hx with rfl | hmem
      · exact digitChar_range (n % 10)
      · exact hacc x hmem

theorem natToChars_mem (n : Nat) :
    ∀ c ∈ natToChars n, 48 ≤ c.toNat ∧ c.toNat ≤ 57 :=
  natToCharsAux_mem (n + 1) n [] (by simp)

theorem isSafeFnChar_of_digit {c : Char} (h1 : 48 ≤ c.toNat) (h2 : c.toNat ≤ 57) :
    isSafeFnChar c = true :=
  decide_eq_true (Or.inr (Or.inr (Or.inl ⟨h1, h2⟩)))

/-- A character the sanitizer keeps is not whitespace and not a path
separator. -/
theorem safeFnChar_props (c : Char) (h : isSafeFnChar c = true) :
    isPySpace c = false ∧ c ≠ '/' := by
  have hp := of_decide_eq_true h
  constructor
  · apply decide_eq_false
    rintro (rfl | rfl | rfl | rfl | h11 | h12)
    · exact absurd hp (by decide)
    · exact absurd hp (by decide)
    · exact absurd hp (by decide)
    · exact absurd hp (by decide)
    · rcases hp with ⟨a, b⟩ | ⟨a, b⟩ | ⟨a, b⟩ | rfl | rfl | rfl <;>
        first | omega | exact absurd h11 (by decide)
    · rcases hp with ⟨a, b⟩ | ⟨a, b⟩ | ⟨a, b⟩ | rfl | rfl | rfl <;>
        first | omega | exact absurd h12 (by decide)
  · rintro rfl
    exact absurd hp (by decide)

theorem splitWsAux_no_space :
    ∀ (l : List Char) (acc : List Char), (∀ c ∈ l, isPySpace c = false) →
      splitWsAux l acc
        = if acc.reverse ++ l = [] then [] else [acc.reverse ++ l] := by
  intro l
  induction l with
  | nil =>
    intro acc _
    rw [splitWsAux]
    simp only [List.append_nil]
    by_cases h : acc = []
    · simp [h]
    · rw [if_neg h, if_neg (by simpa using h)]
  | cons c t ih =>
    intro acc h
    have hc : isPySpace c = false := h c (List.mem_cons_self c t)
    have ht : ∀ x ∈ t, isPySpace x = false :=
      fun x hx => h x (List.mem_cons_of_mem c hx)
    rw [splitWsAux, hc]
    simp only [Bool.false_eq_true, if_false]
    rw [ih (c :: acc) ht]
    rw [List.reverse_cons, List.append_assoc, List.singleton_append]

theorem pySplitWs_no_space (l : List Char) (h : ∀ c ∈ l, isPySpace c = false)
    (hne : l ≠ []) : pySplitWs l = [l] := by
  rw [pySplitWs, splitWsAux_no_space l [] h]
  simp [hne]

theorem intercalate_single (sep a : List Char) : List.intercalate sep [a] = a := by
  simp [List.intercalate, List.intersperse]

theorem dropWhile_eq_self_of_head (p : Char → Bool) (l : List Char)
    (h : ∀ c, l.head? = some c → p c = false) : l.dropWhile p = l := by
  cases l with
  | nil => rfl
  | cons a t =>
    rw [List.dropWhile_cons]
    simp [h a rfl]

theorem stripDotUnderscore_id (l : List Char)
    (hh : ∀ c, l.head? = some c → (decide (c = '.' ∨ c = '_')) = false)
    (hl : ∀ c, l.getLast? = some c → (decide (c = '.' ∨ c = '_')) = false) :
    stripDotUnderscore l = l := by
  rw [stripDotUnderscore]
  rw [dropWhile_eq_self_of_head _ l hh]
  rw [dropWhile_eq_self_of_head _ l.reverse
    (by intro c hc; rw [List.head?_reverse] at hc; exact hl c hc)]
  exact List.reverse_reverse l

/-- On a non-empty all-safe name whose first and last characters are not
dots or underscores, the sanitizer is the identity. -/
theorem secure_filename_id (s : String)
    (hsafe : ∀ c ∈ s.data, isSafeFnChar c = true)
    (hne : s.data ≠ [])
    (hh : ∀ c, s.data.head? = some c → (decide (c = '.' ∨ c = '_')) = false)
    (hl : ∀ c, s.data.getLast? = some c → (decide (c = '.' ∨ c = '_')) = false) :
    secure_filename s = s := by
  rw [secure_filename]
  have hmap : s.data.map (fun c => if c = '/' then ' ' else c) = s.data := by
    rw [List.map_congr_left
      (fun c hc => if_neg ((safeFnChar_props c (hsafe c hc)).2))]
    exact List.map_id' s.data
  rw [hmap]
  rw [pySplitWs_no_space s.data
    (fun c hc => (safeFnChar_props c (hsafe c hc)).1) hne]
  rw [intercalate_single]
  rw [List.filter_eq_self.mpr hsafe]
  rw [stripDotUnderscore_id s.data hh hl]

theorem getLast_append_known {X Y : List Char} {g : Char} (h : Y.getLast? = some g) :
    (X ++ Y).getLast? = some g := by
  rw [List.getLast?_append, h]
  rfl

theorem uploadName_safe (u : User) (f : UploadFile) (now : Nat) (rand8 : String)
    (huid : ∀ c ∈ u.uid.data, isSafeFnChar c = true)
    (hhex : ∀ c ∈ rand8.data,
      (48 ≤ c.toNat ∧ c.toNat ≤ 57) ∨ (97 ≤ c.toNat ∧ c.toNat ≤ 102))
    (hmem : (extAfterDot f.filename.data).map lc ∈ allowedExts) :
    ∀ c ∈ uploadName u f now rand8, isSafeFnChar c = true := by
  intro c hc
  rw [uploadName] at hc
  simp only [List.mem_append] at hc
  rcases hc with (((((((hc | hc) | hc) | hc) | hc) | hc) | hc) | hc)
  · exact (by decide : ∀ x ∈ "proof_".data, isSafeFnChar x = true) c hc
  · exact huid c hc
  · exact (by decide : ∀ x ∈ "_".data, isSafeFnChar x = true) c hc
  · obtain ⟨h1, h2⟩ := natToChars_mem now c hc
    exact isSafeFnChar_of_digit h1 h2
  · exact (by decide : ∀ x ∈ "_".data, isSafeFnChar x = true) c hc
  · rcases hhex c hc with ⟨h1, h2⟩ | ⟨h1, h2⟩
    · exact isSafeFnChar_of_digit h1 h2
    · exact decide_eq_true (Or.inr (Or.inl ⟨h1, by omega⟩))
  · exact (by decide : ∀ x ∈ ".".data, isSafeFnChar x = true) c hc
  · have hdis : (extAfterDot f.filename.data).map lc = "png".data
        ∨ (extAfterDot f.filename.data).map lc = "jpg".data
        ∨ (extAfterDot f.filename.data).map lc = "jpeg".data
        ∨ (extAfterDot f.filename.data).map lc = "pdf".data := by
      simpa [allowedExts] using hmem
    rcases hdis with hE | hE | hE | hE
    · rw [hE] at hc
      exact (by decide : ∀ x ∈ "png".data, isSafeFnChar x = true) c hc
    · rw [hE] at hc
      exact (by decide : ∀ x ∈ "jpg".data, isSafeFnChar x = true) c hc
    · rw [hE] at hc
      exact (by decide : ∀ x ∈ "jpeg".data, isSafeFnChar x = true) c hc
    · rw [hE] at hc
      exact (by decide : ∀ x ∈ "pdf".data, isSafeFnChar x = true) c hc

theorem uploadName_head (u : User) (f : UploadFile) (now : Nat) (rand8 : String) :
    (uploadName u f now rand8).head? = some 'p' := rfl

theorem uploadName_last (u : User) (f : UploadFile) (now : Nat) (rand8 : String)
    (hmem : (extAfterDot f.filename.data).map lc ∈ allowedExts) :
    ∀ c, (uploadName u f now rand8).getLast? = some c →
      (decide (c = '.' ∨ c = '_')) = false := by
  have hdis : (extAfterDot f.filename.data).map lc = "png".data
      ∨ (extAfterDot f.filename.data).map lc = "jpg".data
      ∨ (extAfterDot f.filename.data).map lc = "jpeg".data
      ∨ (extAfterDot f.filename.data).map lc = "pdf".data := by
    simpa [allowedExts] using hmem
  intro c hc
  rw [uploadName] at hc
  rcases hdis with hE | hE | hE | hE <;> rw [hE] at hc
  · rw [getLast_append_known (show ("png".data : List Char).getLast? = some 'g' from rfl)] at hc
    injection hc with h
    subst h
    decide
  · rw [getLast_append_known (show ("jpg".data : List Char).getLast? = some 'g' from rfl)] at hc
    injection hc with h
    subst h
    decide
  · rw [getLast_append_known (show ("jpeg".data : List Char).getLast? = some 'g' from rfl)] at hc
    injection hc with h
    subst h
    decide
  · rw [getLast_append_known (show ("pdf".data : List Char).getLast? = some 'f' from rfl)] at hc
    injection hc with h
    subst h
    decide

/-- **C6.** For an authenticated upload, the endpoint returns 400 when there
is no file part, when the filename is empty, or when the extension is not
one of png/jpg/jpeg/pdf compared case-insensitively; otherwise it succeeds
and the stored and returned filename is exactly
`proof_{uid}_{unixSeconds}_{rand8}.{ext}` with the extension lower-cased,
returned together with the relative URL `/static/proofs/{filename}`
(for a uid made of filename-safe characters and the 8-hex random part the
sanitizer leaves the generated name unchanged). -/
theorem upload_spec (sess : Session) (u : User) (f : UploadFile) (now : Nat)
    (rand8 : String) (hu : sess.user = some u)
    (huid : ∀ c ∈ u.uid.data, isSafeFnChar c = true)
    (hhex : ∀ c ∈ rand8.data,
      (48 ≤ c.toNat ∧ c.toNat ≤ 57) ∨ (97 ≤ c.toNat ∧ c.toNat ≤ 102)) :
    upload_file sess none now rand8 = (.noFilePart, none)
    ∧ uploadStatus (upload_file sess none now rand8).1 = 400
    ∧ (f.filename = "" →
        upload_file sess (some f) now rand8 = (.noSelectedFile, none)
        ∧ uploadStatus (upload_file sess (some f) now rand8).1 = 400)
    ∧ (f.filename ≠ "" → allowed_file f.filename = false →
        upload_file sess (some f) now rand8 = (.notAllowed, none)
        ∧ uploadStatus (upload_file sess (some f) now rand8).1 = 400)
    ∧ (f.filename ≠ "" → allowed_file f.filename = true →
        upload_file sess (some f) now rand8
          = (.ok ⟨"/static/proofs/".data ++ uploadName u f now rand8⟩
              ⟨uploadName u f now rand8⟩, some ⟨uploadName u f now rand8⟩)) := by
  have hnone : upload_file sess none now rand8 = (.noFilePart, none) := by
    rw [upload_file.eq_def, hu]
  have hsome : ∀ g : UploadFile, upload_file sess (some g) now rand8
      = if g.filename = "" then (.noSelectedFile, none)
        else if allowed_file g.filename then
          (.ok ⟨"/static/proofs/".data ++ (secure_filename ⟨uploadName u g now rand8⟩).data⟩
              (secure_filename ⟨uploadName u g now rand8⟩),
            some (secure_filename ⟨uploadName u g now rand8⟩))
        else (.notAllowed, none) := by
    intro g
    rw [upload_file.eq_def, hu]
    rfl
  refine ⟨hnone, by rw [hnone]; rfl, ?_, ?_, ?_⟩
  · intro hfn
    have h := (hsome f).trans (if_pos hfn)
    exact ⟨h, by rw [h]; rfl⟩
  · intro hfn hall
    have h := (hsome f).trans (if_neg hfn)
    rw [hall] at h
    have h2 := h.trans (if_neg (by decide))
    exact ⟨h2, by rw [h2]; rfl⟩
  · intro hfn hall
    have hmem : (extAfterDot f.filename.data).map lc ∈ allowedExts := by
      rw [allowed_file, Bool.and_eq_true] at hall
      exact of_decide_eq_true hall.2
    have hhead := uploadName_head u f now rand8
    have hne : uploadName u f now rand8 ≠ [] := by
      intro hx
      rw [hx] at hhead
      exact absurd hhead (by decide)
    have hid : secure_filename ⟨uploadName u f now rand8⟩ = ⟨uploadName u f now rand8⟩ := by
      refine secure_filename_id _ (uploadName_safe u f now rand8 huid hhex hmem) hne ?_
        (uploadName_last u f now rand8 hmem)
      intro c hc
      rw [hhead] at hc
      injection hc with h
      subst h
      decide
    have h := (hsome f).trans (if_neg hfn)
    rw [hall] at h
    have h2 := h.trans (if_pos rfl)
    rw [h2, hid]

/-- Witness for `upload_spec`: a missing file part and an `.exe` upload are
rejected with 400, while `scan.PNG` succeeds with the generated unique
filename and its public URL. -/
theorem upload_spec_witness :
    upload_file sessW none 99 "abcd1234" = (.noFilePart, none)
    ∧ upload_file sessW (some { filename := "a.exe" }) 99 "abcd1234"
        = (.notAllowed, none)
    ∧ uploadStatus (upload_file sessW (some { filename := "a.exe" }) 99 "abcd1234").1
        = 400
    ∧ upload_file sessW (some { filename := "scan.PNG" }) 99 "abcd1234"
        = (.ok "/static/proofs/proof_u1_99_abcd1234.png" "proof_u1_99_abcd1234.png",
            some "proof_u1_99_abcd1234.png") := by
  have h1 := upload_spec sessW userW { filename := "a.exe" } 99 "abcd1234" rfl
    (by decide) (by decide)
  have h2 := upload_spec sessW userW { filename := "scan.PNG" } 99 "abcd1234" rfl
    (by decide) (by decide)
  have h3 := h1.2.2.2.1 (by decide) (by decide)
  have h4 := h2.2.2.2.2 (by decide) (by decide)
  exact ⟨h1.1, h3.1, h3.2, h4.trans (by decide)⟩
